import Mathlib

/-!
Verification of the phenotype-mapping engine in `phenotype_mapper.py`.

The Python code is shallowly embedded: strings are Lean `String`s (lists of
characters), Python dicts are association lists preserving insertion order,
Python sets of phenotype names are duplicate-free lists built by
insert-if-absent, float confidence constants are rationals, and the
`KeyError` that a dict subscript can raise is an `Except.error` result.
-/

namespace PhenoMap

/-! ### Character-level helpers

`wsp` is the whitespace class of Python's `str.strip()`;
`upChar` is `str.upper()` on a single character (ASCII letters only,
matching CPython's behaviour on the code strings this program handles). -/

def wsp (c : Char) : Bool :=
  c == ' ' || c == '\t' || c == '\n' || c == '\r' || c == '\x0b' || c == '\x0c'

def upChar (c : Char) : Char :=
  if c = 'a' then 'A' else if c = 'b' then 'B' else if c = 'c' then 'C'
  else if c = 'd' then 'D' else if c = 'e' then 'E' else if c = 'f' then 'F'
  else if c = 'g' then 'G' else if c = 'h' then 'H' else if c = 'i' then 'I'
  else if c = 'j' then 'J' else if c = 'k' then 'K' else if c = 'l' then 'L'
  else if c = 'm' then 'M' else if c = 'n' then 'N' else if c = 'o' then 'O'
  else if c = 'p' then 'P' else if c = 'q' then 'Q' else if c = 'r' then 'R'
  else if c = 's' then 'S' else if c = 't' then 'T' else if c = 'u' then 'U'
  else if c = 'v' then 'V' else if c = 'w' then 'W' else if c = 'x' then 'X'
  else if c = 'y' then 'Y' else if c = 'z' then 'Z' else c

theorem upChar_of_notLower (c : Char) (h1 : c ≠ 'a') (h2 : c ≠ 'b')
    (h3 : c ≠ 'c') (h4 : c ≠ 'd') (h5 : c ≠ 'e') (h6 : c ≠ 'f')
    (h7 : c ≠ 'g') (h8 : c ≠ 'h') (h9 : c ≠ 'i') (h10 : c ≠ 'j')
    (h11 : c ≠ 'k') (h12 : c ≠ 'l') (h13 : c ≠ 'm') (h14 : c ≠ 'n')
    (h15 : c ≠ 'o') (h16 : c ≠ 'p') (h17 : c ≠ 'q') (h18 : c ≠ 'r')
    (h19 : c ≠ 's') (h20 : c ≠ 't') (h21 : c ≠ 'u') (h22 : c ≠ 'v')
    (h23 : c ≠ 'w') (h24 : c ≠ 'x') (h25 : c ≠ 'y') (h26 : c ≠ 'z') :
    upChar c = c := by
  unfold upChar
  rw [if_neg h1, if_neg h2, if_neg h3, if_neg h4, if_neg h5, if_neg h6,
    if_neg h7, if_neg h8, if_neg h9, if_neg h10, if_neg h11, if_neg h12,
    if_neg h13, if_neg h14, if_neg h15, if_neg h16, if_neg h17, if_neg h18,
    if_neg h19, if_neg h20, if_neg h21, if_neg h22, if_neg h23, if_neg h24,
    if_neg h25, if_neg h26]

theorem upChar_upChar (c : Char) : upChar (upChar c) = upChar c := by
  by_cases h1 : c = 'a'
  · subst h1; rfl
  by_cases h2 : c = 'b'
  · subst h2; rfl
  by_cases h3 : c = 'c'
  · subst h3; rfl
  by_cases h4 : c = 'd'
  · subst h4; rfl
  by_cases h5 : c = 'e'
  · subst h5; rfl
  by_cases h6 : c = 'f'
  · subst h6; rfl
  by_cases h7 : c = 'g'
  · subst h7; rfl
  by_cases h8 : c = 'h'
  · subst h8; rfl
  by_cases h9 : c = 'i'
  · subst h9; rfl
  by_cases h10 : c = 'j'
  · subst h10; rfl
  by_cases h11 : c = 'k'
  · subst h11; rfl
  by_cases h12 : c = 'l'
  · subst h12; rfl
  by_cases h13 : c = 'm'
  · subst h13; rfl
  by_cases h14 : c = 'n'
  · subst h14; rfl
  by_cases h15 : c = 'o'
  · subst h15; rfl
  by_cases h16 : c = 'p'
  · subst h16; rfl
  by_cases h17 : c = 'q'
  · subst h17; rfl
  by_cases h18 : c = 'r'
  · subst h18; rfl
  by_cases h19 : c = 's'
  · subst h19; rfl
  by_cases h20 : c = 't'
  · subst h20; rfl
  by_cases h21 : c = 'u'
  · subst h21; rfl
  by_cases h22 : c = 'v'
  · subst h22; rfl
  by_cases h23 : c = 'w'
  · subst h23; rfl
  by_cases h24 : c = 'x'
  · subst h24; rfl
  by_cases h25 : c = 'y'
  · subst h25; rfl
  by_cases h26 : c = 'z'
  · subst h26; rfl
  have hfix := upChar_of_notLower c h1 h2 h3 h4 h5 h6 h7 h8 h9 h10 h11 h12
    h13 h14 h15 h16 h17 h18 h19 h20 h21 h22 h23 h24 h25 h26
  rw [hfix, hfix]

theorem wsp_upChar (c : Char) : wsp (upChar c) = wsp c := by
  by_cases h1 : c = 'a'
  · subst h1; rfl
  by_cases h2 : c = 'b'
  · subst h2; rfl
  by_cases h3 : c = 'c'
  · subst h3; rfl
  by_cases h4 : c = 'd'
  · subst h4; rfl
  by_cases h5 : c = 'e'
  · subst h5; rfl
  by_cases h6 : c = 'f'
  · subst h6; rfl
  by_cases h7 : c = 'g'
  · subst h7; rfl
  by_cases h8 : c = 'h'
  · subst h8; rfl
  by_cases h9 : c = 'i'
  · subst h9; rfl
  by_cases h10 : c = 'j'
  · subst h10; rfl
  by_cases h11 : c = 'k'
  · subst h11; rfl
  by_cases h12 : c = 'l'
  · subst h12; rfl
  by_cases h13 : c = 'm'
  · subst h13; rfl
  by_cases h14 : c = 'n'
  · subst h14; rfl
  by_cases h15 : c = 'o'
  · subst h15; rfl
  by_cases h16 : c = 'p'
  · subst h16; rfl
  by_cases h17 : c = 'q'
  · subst h17; rfl
  by_cases h18 : c = 'r'
  · subst h18; rfl
  by_cases h19 : c = 's'
  · subst h19; rfl
  by_cases h20 : c = 't'
  · subst h20; rfl
  by_cases h21 : c = 'u'
  · subst h21; rfl
  by_cases h22 : c = 'v'
  · subst h22; rfl
  by_cases h23 : c = 'w'
  · subst h23; rfl
  by_cases h24 : c = 'x'
  · subst h24; rfl
  by_cases h25 : c = 'y'
  · subst h25; rfl
  by_cases h26 : c = 'z'
  · subst h26; rfl
  rw [upChar_of_notLower c h1 h2 h3 h4 h5 h6 h7 h8 h9 h10 h11 h12 h13 h14
    h15 h16 h17 h18 h19 h20 h21 h22 h23 h24 h25 h26]

/-- Python `str.strip()`: drop leading then trailing whitespace. -/
def trimChars (l : List Char) : List Char :=
  (l.dropWhile wsp).rdropWhile wsp

def sTrim (s : String) : String := ⟨trimChars s.data⟩

def sUpper (s : String) : String := ⟨s.data.map upChar⟩

theorem dropWhile_eq_cons_imp (p : Char → Bool) :
    ∀ (l : List Char) (x : Char) (t : List Char),
      l.dropWhile p = x :: t → p x = false := by
  intro l
  induction l with
  | nil => intro x t h; simp [List.dropWhile] at h
  | cons a l ih =>
    intro x t h
    by_cases hp : p a
    · rw [List.dropWhile_cons_of_pos hp] at h
      exact ih x t h
    · rw [List.dropWhile_cons_of_neg hp] at h
      cases h
      simpa using hp

theorem eq_self_cons_imp (p : Char → Bool) (x : Char) (t : List Char)
    (h : List.dropWhile p (x :: t) = x :: t) : p x = false :=
  dropWhile_eq_cons_imp p (x :: t) x t h

theorem dropWhile_keep (p : Char → Bool) (x : Char) (t : List Char)
    (h : p x = false) : List.dropWhile p (x :: t) = x :: t :=
  List.dropWhile_cons_of_neg (by simp [h])

theorem rdropWhile_eq_of_rev (p : Char → Bool) (y : List Char)
    (h : y.reverse.dropWhile p = y.reverse) : y.rdropWhile p = y := by
  rw [List.rdropWhile, h, List.reverse_reverse]

theorem rev_dropWhile_of_rdrop (p : Char → Bool) (y : List Char)
    (h : y.rdropWhile p = y) : y.reverse.dropWhile p = y.reverse := by
  rw [List.rdropWhile, List.reverse_eq_iff] at h
  exact h

theorem dropWhile_trimChars (l : List Char) :
    (trimChars l).dropWhile wsp = trimChars l := by
  cases h : trimChars l with
  | nil => simp [List.dropWhile]
  | cons x t =>
    have hpre : (trimChars l) <+: (l.dropWhile wsp) := List.rdropWhile_prefix wsp _
    obtain ⟨s, hs⟩ := hpre
    rw [h] at hs
    have hx : wsp x = false := dropWhile_eq_cons_imp wsp l x (t ++ s) hs.symm
    exact dropWhile_keep wsp x t hx

theorem rdropWhile_trimChars (l : List Char) :
    (trimChars l).rdropWhile wsp = trimChars l :=
  List.rdropWhile_idempotent wsp _

theorem trimChars_eq_self (l : List Char) (h1 : l.dropWhile wsp = l)
    (h2 : l.rdropWhile wsp = l) : trimChars l = l := by
  rw [trimChars, h1, h2]

theorem trimChars_trimChars (l : List Char) :
    trimChars (trimChars l) = trimChars l :=
  trimChars_eq_self _ (dropWhile_trimChars l) (rdropWhile_trimChars l)

/-! ### Code normalizers

`_format_icd9_code`: strip; codes starting with `V` or `E` pass through;
otherwise insert a decimal after the third character when the code is at
least four characters long and has no decimal yet.  The Python
`elif len(code) == 3` and final `else` branches both return the code
unchanged, so they collapse into a single else branch here.
`_format_icd10_code` is the same with an initial upper-casing and no
V/E special case. -/

/-- decimal insertion, `code[:3] + "." + code[3:]` -/
def dotIns (c : List Char) : List Char :=
  c.take 3 ++ '.' :: c.drop 3

/-- test `code.startswith(('V', 'E'))` -/
def startsVE : List Char → Bool
  | [] => false
  | c :: _ => c == 'V' || c == 'E'

def fmt9 (l : List Char) : List Char :=
  if startsVE (trimChars l) then trimChars l
  else if 4 ≤ (trimChars l).length ∧ '.' ∉ trimChars l then dotIns (trimChars l)
  else trimChars l

def fmt10 (l : List Char) : List Char :=
  if 4 ≤ ((trimChars l).map upChar).length ∧ '.' ∉ (trimChars l).map upChar then
    dotIns ((trimChars l).map upChar)
  else (trimChars l).map upChar

def format_icd9_code (code : String) : String := ⟨fmt9 code.data⟩

def format_icd10_code (code : String) : String := ⟨fmt10 code.data⟩

theorem dotIns_cons (a : Char) (t : List Char) :
    dotIns (a :: t) = a :: (t.take 2 ++ '.' :: List.drop 3 (a :: t)) := by
  simp [dotIns, List.take_succ_cons, List.cons_append]

theorem startsVE_dotIns (y : List Char) (h : y ≠ []) :
    startsVE (dotIns y) = startsVE y := by
  cases y with
  | nil => exact absurd rfl h
  | cons a t => rw [dotIns_cons]; rfl

theorem dot_mem_dotIns (y : List Char) : '.' ∈ dotIns y := by
  simp [dotIns]

theorem trim_dotIns (y : List Char) (h1 : y.dropWhile wsp = y)
    (h2 : y.rdropWhile wsp = y) (h4 : 4 ≤ y.length) :
    trimChars (dotIns y) = dotIns y := by
  cases hy : y with
  | nil => subst hy; simp at h4
  | cons a t =>
    subst hy
    apply trimChars_eq_self
    · rw [dotIns_cons]
      exact dropWhile_keep wsp a _ (eq_self_cons_imp wsp a t h1)
    · apply rdropWhile_eq_of_rev
      have hrev : (a :: t).reverse.dropWhile wsp = (a :: t).reverse :=
        rev_dropWhile_of_rdrop wsp _ h2
      have hsplit : (a :: t) = (a :: t).take 3 ++ (a :: t).drop 3 :=
        (List.take_append_drop 3 (a :: t)).symm
      have hdne : List.drop 3 (a :: t) ≠ [] := by
        intro hnil
        rw [List.drop_eq_nil_iff] at hnil
        omega
      cases hd : List.drop 3 (a :: t) with
      | nil => exact absurd hd hdne
      | cons z w =>
        have hzrev : ∃ u, (a :: t).reverse = (z :: w).reverse ++ u := by
          refine ⟨((a :: t).take 3).reverse, ?_⟩
          conv_lhs => rw [hsplit]
          rw [hd, List.reverse_append]
        obtain ⟨u, hu⟩ := hzrev
        have hwz : wsp ((z :: w).getLast (by simp)) = false := by
          have hzw : (z :: w).reverse = (z :: w).getLast (by simp) :: (z :: w).dropLast.reverse := by
            rw [← List.reverse_concat, List.dropLast_concat_getLast]
          rw [hzw] at hu
          rw [hu] at hrev
          exact eq_self_cons_imp wsp _ _ hrev
        have hrew : (dotIns (a :: t)).reverse =
            (z :: w).getLast (by simp) :: ((z :: w).dropLast.reverse ++ ['.'] ++ ((a :: t).take 3).reverse) := by
          rw [dotIns, List.reverse_append, List.reverse_cons, hd]
          have hzw : (z :: w).reverse = (z :: w).getLast (by simp) :: (z :: w).dropLast.reverse := by
            rw [← List.reverse_concat, List.dropLast_concat_getLast]
          rw [hzw]
          simp [List.append_assoc]
        rw [hrew]
        exact dropWhile_keep wsp _ _ hwz

theorem mapUp_mapUp (c : List Char) :
    (c.map upChar).map upChar = c.map upChar := by
  induction c with
  | nil => rfl
  | cons a t ih => simp only [List.map_cons, upChar_upChar, ih]

theorem dropWhile_mapUp_trim (l : List Char) :
    ((trimChars l).map upChar).dropWhile wsp = (trimChars l).map upChar := by
  cases h : trimChars l with
  | nil => simp [List.dropWhile]
  | cons x t =>
    have hx : wsp x = false := by
      have := dropWhile_trimChars l
      rw [h] at this
      exact eq_self_cons_imp wsp x t this
    rw [List.map_cons]
    exact dropWhile_keep wsp _ _ (by rw [wsp_upChar]; exact hx)

theorem rdropWhile_mapUp_trim (l : List Char) :
    ((trimChars l).map upChar).rdropWhile wsp = (trimChars l).map upChar := by
  apply rdropWhile_eq_of_rev
  rw [← List.map_reverse]
  have hrev : (trimChars l).reverse.dropWhile wsp = (trimChars l).reverse :=
    rev_dropWhile_of_rdrop wsp _ (rdropWhile_trimChars l)
  cases h : (trimChars l).reverse with
  | nil => simp [List.dropWhile]
  | cons z w =>
    have hz : wsp z = false := by
      rw [h] at hrev
      exact eq_self_cons_imp wsp z w hrev
    rw [List.map_cons]
    exact dropWhile_keep wsp _ _ (by rw [wsp_upChar]; exact hz)

theorem trim_mapUp_trim (l : List Char) :
    trimChars ((trimChars l).map upChar) = (trimChars l).map upChar :=
  trimChars_eq_self _ (dropWhile_mapUp_trim l) (rdropWhile_mapUp_trim l)

theorem mapUp_dotIns (y : List Char) (hy : y.map upChar = y) :
    (dotIns y).map upChar = dotIns y := by
  rw [dotIns, List.map_append, List.map_cons, List.map_take, List.map_drop, hy]
  rfl

theorem fmt9_fmt9 (l : List Char) : fmt9 (fmt9 l) = fmt9 l := by
  by_cases hve : startsVE (trimChars l) = true
  · have hy : fmt9 l = trimChars l := by unfold fmt9; rw [if_pos hve]
    rw [hy]
    unfold fmt9
    rw [trimChars_trimChars l, if_pos hve]
  · by_cases hc : 4 ≤ (trimChars l).length ∧ '.' ∉ trimChars l
    · have hy : fmt9 l = dotIns (trimChars l) := by
        unfold fmt9; rw [if_neg hve, if_pos hc]
      rw [hy]
      unfold fmt9
      have htne : trimChars l ≠ [] := by
        intro hnil
        rw [hnil] at hc
        simp at hc
      have htr : trimChars (dotIns (trimChars l)) = dotIns (trimChars l) :=
        trim_dotIns _ (dropWhile_trimChars l) (rdropWhile_trimChars l) hc.1
      rw [htr]
      have hve' : ¬ startsVE (dotIns (trimChars l)) = true := by
        rw [startsVE_dotIns _ htne]
        exact hve
      rw [if_neg hve']
      have hdot : ¬ (4 ≤ (dotIns (trimChars l)).length ∧ '.' ∉ dotIns (trimChars l)) := by
        intro hcon
        exact hcon.2 (dot_mem_dotIns _)
      rw [if_neg hdot]
    · have hy : fmt9 l = trimChars l := by
        unfold fmt9; rw [if_neg hve, if_neg hc]
      rw [hy]
      unfold fmt9
      rw [trimChars_trimChars l, if_neg hve, if_neg hc]

theorem fmt10_fmt10 (l : List Char) : fmt10 (fmt10 l) = fmt10 l := by
  by_cases hc : 4 ≤ ((trimChars l).map upChar).length ∧ '.' ∉ (trimChars l).map upChar
  · have hy : fmt10 l = dotIns ((trimChars l).map upChar) := by
      unfold fmt10; rw [if_pos hc]
    rw [hy]
    unfold fmt10
    have htr : trimChars (dotIns ((trimChars l).map upChar)) = dotIns ((trimChars l).map upChar) :=
      trim_dotIns _ (dropWhile_mapUp_trim l) (rdropWhile_mapUp_trim l) hc.1
    rw [htr]
    have hup : (dotIns ((trimChars l).map upChar)).map upChar = dotIns ((trimChars l).map upChar) :=
      mapUp_dotIns _ (mapUp_mapUp _)
    rw [hup]
    have hdot : ¬ (4 ≤ (dotIns ((trimChars l).map upChar)).length ∧
        '.' ∉ dotIns ((trimChars l).map upChar)) := by
      intro hcon
      exact hcon.2 (dot_mem_dotIns _)
    rw [if_neg hdot]
  · have hy : fmt10 l = (trimChars l).map upChar := by
      unfold fmt10; rw [if_neg hc]
    rw [hy]
    unfold fmt10
    rw [trim_mapUp_trim l, mapUp_mapUp _, if_neg hc]

theorem format_icd9_idem (x : String) :
    format_icd9_code (format_icd9_code x) = format_icd9_code x := by
  simp only [format_icd9_code]
  exact congrArg String.mk (fmt9_fmt9 x.data)

theorem format_icd10_idem (x : String) :
    format_icd10_code (format_icd10_code x) = format_icd10_code x := by
  simp only [format_icd10_code]
  exact congrArg String.mk (fmt10_fmt10 x.data)

/-! ### Code classifier

`_detect_code_type` strips its argument and tests three anchored regular
expressions in order.  `\d` and `[A-Z]` are transcribed with their ASCII
meaning, which is what the code strings of this corpus exercise. -/

/-- the optional group `(\.\d+)?` anchored at the end of the string -/
def optFrac (l : List Char) : Bool :=
  match l with
  | [] => true
  | a :: ds => a == '.' && !ds.isEmpty && ds.all Char.isDigit

/-- regex `^[A-Z]\d{2}(\.\d+)?$` -/
def isIcd10Pat (l : List Char) : Bool :=
  match l with
  | c :: d1 :: d2 :: rest =>
      (decide ('A' ≤ c) && decide (c ≤ 'Z')) && d1.isDigit && d2.isDigit && optFrac rest
  | _ => false

/-- regex `^(\d{3}(\.\d+)?|[VE]\d{2}(\.\d+)?)$` -/
def isIcd9Pat (l : List Char) : Bool :=
  match l with
  | d1 :: d2 :: d3 :: rest =>
      (d1.isDigit && d2.isDigit && d3.isDigit && optFrac rest) ||
      ((d1 == 'V' || d1 == 'E') && d2.isDigit && d3.isDigit && optFrac rest)
  | _ => false

/-- regex `^\d{6,18}$` -/
def isSnomedPat (l : List Char) : Bool :=
  (decide (6 ≤ l.length) && decide (l.length ≤ 18)) && l.all Char.isDigit

def detect_code_type (medical_code : String) : String :=
  if isIcd10Pat (trimChars medical_code.data) then "icd10"
  else if isIcd9Pat (trimChars medical_code.data) then "icd9"
  else if isSnomedPat (trimChars medical_code.data) then "snomed"
  else "unknown"

/-! Declarative readings of the three patterns, and the proof that the
boolean matchers decide them. -/

def DigitStr (l : List Char) : Prop := ∀ c ∈ l, c.isDigit = true

def OptFracShape (l : List Char) : Prop :=
  l = [] ∨ ∃ ds, l = '.' :: ds ∧ ds ≠ [] ∧ DigitStr ds

def Icd10Shape (l : List Char) : Prop :=
  ∃ c d1 d2 rest, l = c :: d1 :: d2 :: rest ∧ 'A' ≤ c ∧ c ≤ 'Z' ∧
    d1.isDigit = true ∧ d2.isDigit = true ∧ OptFracShape rest

def Icd9Shape (l : List Char) : Prop :=
  ∃ d1 d2 d3 rest, l = d1 :: d2 :: d3 :: rest ∧
    ((d1.isDigit = true ∧ d2.isDigit = true ∧ d3.isDigit = true) ∨
     ((d1 = 'V' ∨ d1 = 'E') ∧ d2.isDigit = true ∧ d3.isDigit = true)) ∧
    OptFracShape rest

def SnomedShape (l : List Char) : Prop :=
  6 ≤ l.length ∧ l.length ≤ 18 ∧ DigitStr l

theorem optFrac_iff (l : List Char) : optFrac l = true ↔ OptFracShape l := by
  cases l with
  | nil => simp [optFrac, OptFracShape]
  | cons a ds =>
    simp only [optFrac, OptFracShape, Bool.and_eq_true, beq_iff_eq,
      Bool.not_eq_true', List.isEmpty_eq_false, List.all_eq_true]
    constructor
    · rintro ⟨⟨ha, hne⟩, hall⟩
      refine Or.inr ⟨ds, by rw [ha], hne, hall⟩
    · rintro (h | ⟨ds', heq, hne, hall⟩)
      · exact absurd h (by simp)
      · obtain ⟨rfl, rfl⟩ : a = '.' ∧ ds = ds' := by
          constructor <;> [exact (List.cons.injEq _ _ _ _ ▸ heq).1;
            exact (List.cons.injEq _ _ _ _ ▸ heq).2]
        exact ⟨⟨rfl, hne⟩, hall⟩

theorem isIcd10Pat_iff (l : List Char) : isIcd10Pat l = true ↔ Icd10Shape l := by
  cases l with
  | nil => simp [isIcd10Pat, Icd10Shape]
  | cons c t =>
    cases t with
    | nil => simp [isIcd10Pat, Icd10Shape]
    | cons d1 t2 =>
      cases t2 with
      | nil => simp [isIcd10Pat, Icd10Shape]
      | cons d2 rest =>
        simp only [isIcd10Pat, Icd10Shape, Bool.and_eq_true, decide_eq_true_eq,
          optFrac_iff]
        constructor
        · rintro ⟨⟨⟨⟨h1, h2⟩, h3⟩, h4⟩, h5⟩
          exact ⟨c, d1, d2, rest, rfl, h1, h2, h3, h4, h5⟩
        · rintro ⟨c', d1', d2', rest', heq, h1, h2, h3, h4, h5⟩
          obtain ⟨rfl, rfl, rfl, rfl⟩ :
              c = c' ∧ d1 = d1' ∧ d2 = d2' ∧ rest = rest' := by
            simpa using heq
          exact ⟨⟨⟨⟨h1, h2⟩, h3⟩, h4⟩, h5⟩

theorem isIcd9Pat_iff (l : List Char) : isIcd9Pat l = true ↔ Icd9Shape l := by
  cases l with
  | nil => simp [isIcd9Pat, Icd9Shape]
  | cons d1 t =>
    cases t with
    | nil => simp [isIcd9Pat, Icd9Shape]
    | cons d2 t2 =>
      cases t2 with
      | nil => simp [isIcd9Pat, Icd9Shape]
      | cons d3 rest =>
        simp only [isIcd9Pat, Icd9Shape, Bool.or_eq_true, Bool.and_eq_true,
          beq_iff_eq, optFrac_iff]
        constructor
        · rintro (⟨⟨⟨h1, h2⟩, h3⟩, h5⟩ | ⟨⟨⟨h1, h2⟩, h3⟩, h5⟩)
          · exact ⟨d1, d2, d3, rest, rfl, Or.inl ⟨h1, h2, h3⟩, h5⟩
          · exact ⟨d1, d2, d3, rest, rfl, Or.inr ⟨h1, h2, h3⟩, h5⟩
        · rintro ⟨d1', d2', d3', rest', heq, hd, h5⟩
          obtain ⟨rfl, rfl, rfl, rfl⟩ :
              d1 = d1' ∧ d2 = d2' ∧ d3 = d3' ∧ rest = rest' := by
            simpa using heq
          rcases hd with ⟨h1, h2, h3⟩ | ⟨h1, h2, h3⟩
          · exact Or.inl ⟨⟨⟨h1, h2⟩, h3⟩, h5⟩
          · exact Or.inr ⟨⟨⟨h1, h2⟩, h3⟩, h5⟩

theorem isSnomedPat_iff (l : List Char) : isSnomedPat l = true ↔ SnomedShape l := by
  simp [isSnomedPat, SnomedShape, List.all_eq_true, DigitStr, and_assoc]

/-! ### Python dicts and sets

Dicts are association lists: `alSet` updates in place or appends at the
end, mirroring insertion-ordered Python dicts.  Phenotype sets are
duplicate-free lists with insert-if-absent, mirroring `set.add` /
`set.update`. -/

def alGet {α : Type} (m : List (String × α)) (k : String) : Option α :=
  match m with
  | [] => none
  | (k', v) :: rest => if k' = k then some v else alGet rest k

def alSet {α : Type} (m : List (String × α)) (k : String) (v : α) :
    List (String × α) :=
  match m with
  | [] => [(k, v)]
  | (k', v') :: rest => if k' = k then (k, v) :: rest else (k', v') :: alSet rest k v

def alKeys {α : Type} (m : List (String × α)) : List String := m.map Prod.fst

def setAdd (s : List String) (x : String) : List String :=
  if x ∈ s then s else s ++ [x]

def setUnion (s t : List String) : List String := t.foldl setAdd s

/-- Python `defaultdict(set)`: `m[k].add(v)` -/
def dictSetAdd (m : List (String × List String)) (k v : String) :
    List (String × List String) :=
  alSet m k (setAdd ((alGet m k).getD []) v)

/-- Python `defaultdict(set)`: `m[k].update(vs)` -/
def dictSetUnion (m : List (String × List String)) (k : String) (vs : List String) :
    List (String × List String) :=
  alSet m k (setUnion ((alGet m k).getD []) vs)

/-! ### Mapper state and resolver -/

structure MappingResult where
  input_code : String
  formatted_code : String
  detected_type : String
  phenotypes : List String
  description : String
  match_type : String
  confidence : Rat
  mapping_path : String
  approximate_match : Bool
deriving DecidableEq

structure MapperState where
  phenotype_index_icd10 : List (String × List String)
  phenotype_index_snomed : List (String × List String)
  phenotype_index_icd9 : List (String × List String)
  phenotype_descriptions : List (String × String)
  code_descriptions : List (String × String)
  icd9_to_icd10_map : List (String × (String × Bool))
  icd10_to_icd9_map : List (String × List String)
deriving DecidableEq

def initState : MapperState := ⟨[], [], [], [], [], [], []⟩

/-- lookup `self.phenotype_index[code_type]`: the outer dict has exactly the keys
`icd10`, `snomed`, `icd9`; any other subscript raises `KeyError`. -/
def partitionGet (st : MapperState) (code_type : String) :
    Option (List (String × List String)) :=
  if code_type = "icd10" then some st.phenotype_index_icd10
  else if code_type = "snomed" then some st.phenotype_index_snomed
  else if code_type = "icd9" then some st.phenotype_index_icd9
  else none

/-- the `code_type` in effect after the `auto` detection step -/
def resolvedType (medical_code code_type : String) : String :=
  if code_type = "auto" then detect_code_type (sTrim medical_code) else code_type

/-- the per-type formatting step of `map_code` -/
def formatFor (t original_code : String) : String :=
  if t = "icd9" then format_icd9_code original_code
  else if t = "icd10" then format_icd10_code original_code
  else sUpper original_code

def formattedOf (medical_code code_type : String) : String :=
  formatFor (resolvedType medical_code code_type) (sTrim medical_code)

/-- computes `medical_code.split('.')[0]`: the characters before the first dot. -/
def code_base_of (medical_code : String) : List Char :=
  medical_code.data.takeWhile (fun c => !(c == '.'))

/-- the inner loop of `_find_partial_matches`: scan all indexed codes and
collect the phenotype sets of those starting with `pre`. -/
def prefix_scan (part : List (String × List String)) (pre : List Char)
    (acc : List String) : List String :=
  part.foldl
    (fun a kv => if pre.isPrefixOf kv.1.data then setUnion a kv.2 else a) acc

/-- one iteration of the `for length in [4, 3, 2]` loop. -/
def fpm_step (part : List (String × List String)) (code_base : List Char)
    (acc : List String) (n : Nat) : List String :=
  if n < code_base.length then prefix_scan part (code_base.take n) acc else acc

/-- the `matches` set after the decimal-stripped exact lookup. -/
def fpm_base (part : List (String × List String)) (code_base : List Char) :
    List String :=
  match alGet part ⟨code_base⟩ with
  | some ps => setUnion [] ps
  | none => []

/-- method `_find_partial_matches`, with the partition passed explicitly (the
Python method re-reads `self.phenotype_index[code_type]`). -/
def find_partial_matches (part : List (String × List String))
    (medical_code : String) : List String :=
  ([4, 3, 2] : List Nat).foldl (fpm_step part (code_base_of medical_code))
    (fpm_base part (code_base_of medical_code))

/-- the ICD9-through-ICD10 bridging step of `map_code`: crosswalk hit and
a non-empty ICD10 phenotype set, or nothing. -/
def bridged_lookup (st : MapperState) (t f : String) :
    Option (String × Bool × List String) :=
  if t = "icd9" then
    match alGet st.icd9_to_icd10_map f with
    | some (icd10_code, approx) =>
      let ips := (alGet st.phenotype_index_icd10 icd10_code).getD []
      if ips ≠ [] then some (icd10_code, approx, ips) else none
    | none => none
  else none

def initResult (original_code formatted_code t : String) : MappingResult :=
  { input_code := original_code, formatted_code := formatted_code,
    detected_type := t, phenotypes := [], description := "",
    match_type := "none", confidence := 0, mapping_path := "",
    approximate_match := false }

/-- method `PhenotypeMapper.map_code`.  The `KeyError` a dict subscript can raise
is an `Except.error`. -/
def map_code (st : MapperState) (medical_code : String)
    (code_type : String := "auto") : Except String MappingResult :=
  let original_code := sTrim medical_code
  let t := resolvedType medical_code code_type
  let formatted_code := formatFor t original_code
  match partitionGet st t with
  | none => Except.error ("KeyError: " ++ t)
  | some part =>
    let phenotypes := (alGet part formatted_code).getD []
    if phenotypes ≠ [] then
      Except.ok { initResult original_code formatted_code t with
        phenotypes := phenotypes,
        description := (alGet st.code_descriptions formatted_code).getD "",
        match_type := "direct", confidence := 1,
        mapping_path := t ++ " -> phenotype" }
    else
      match bridged_lookup st t formatted_code with
      | some (icd10_code, approx, ips) =>
        Except.ok { initResult original_code formatted_code t with
          phenotypes := ips,
          description := (alGet st.code_descriptions icd10_code).getD "",
          match_type := "mapped",
          confidence := if approx then 7/10 else 9/10,
          mapping_path := "icd9 -> icd10 (" ++ icd10_code ++ ") -> phenotype",
          approximate_match := approx }
      | none =>
        let pp := find_partial_matches part formatted_code
        if pp ≠ [] then
          Except.ok { initResult original_code formatted_code t with
            phenotypes := pp,
            description := (alGet st.code_descriptions formatted_code).getD "",
            match_type := "partial", confidence := 1/2,
            mapping_path := t ++ " -> phenotype (partial match)" }
        else Except.ok (initResult original_code formatted_code t)

/-! ### Index construction (`_build_phenotype_index`, `_process_csv_file`,
`_load_icd9_mapping`)

File-system enumeration and CSV parsing are the out-of-scope I/O shell;
the rows a file yields are taken as input lists.  The `approximate` /
`no_map` columns arrive as parsed integers. -/

structure CorpusRow where
  medical_code_id : String
  description : String
  snomed_ct_code : String

structure CrosswalkRow where
  icd10cm : String
  icd9cm : String
  approximate : Nat
  no_map : Nat

/-- insertion `self.phenotype_index[code_type][code].add(phen)`; the callers in
`_build_phenotype_index` only pass `icd10` and `snomed`. -/
def indexAdd (st : MapperState) (code_type code phen : String) : MapperState :=
  if code_type = "icd10" then
    { st with phenotype_index_icd10 := dictSetAdd st.phenotype_index_icd10 code phen }
  else if code_type = "snomed" then
    { st with phenotype_index_snomed := dictSetAdd st.phenotype_index_snomed code phen }
  else if code_type = "icd9" then
    { st with phenotype_index_icd9 := dictSetAdd st.phenotype_index_icd9 code phen }
  else st

def process_csv_row (phenotype_name code_type : String) (st : MapperState)
    (row : CorpusRow) : MapperState :=
  let medical_code := sTrim row.medical_code_id
  let description := sTrim row.description
  let snomed_code := sTrim row.snomed_ct_code
  if medical_code ≠ "" then
    let st1 := indexAdd st code_type medical_code phenotype_name
    let st2 := { st1 with
      code_descriptions := alSet st1.code_descriptions medical_code description,
      phenotype_descriptions := alSet st1.phenotype_descriptions medical_code phenotype_name }
    if code_type = "snomed" ∧ snomed_code ≠ "" then
      let st3 := { st2 with
        phenotype_index_snomed := dictSetAdd st2.phenotype_index_snomed snomed_code phenotype_name }
      { st3 with
        code_descriptions := alSet st3.code_descriptions snomed_code description,
        phenotype_descriptions := alSet st3.phenotype_descriptions snomed_code phenotype_name }
    else st2
  else st

def process_csv_file (phenotype_name code_type : String) (st : MapperState)
    (rows : List CorpusRow) : MapperState :=
  rows.foldl (process_csv_row phenotype_name code_type) st

/-- computes `re.sub(r'_birm_cam.*$', '', folder_name)` -/
def stripFromMarker : List Char → List Char
  | [] => []
  | c :: r =>
    if ("_birm_cam".data).isPrefixOf (c :: r) then []
    else c :: stripFromMarker r

def containsMarker : List Char → Bool
  | [] => false
  | c :: r => ("_birm_cam".data).isPrefixOf (c :: r) || containsMarker r

def extract_phenotype_name (folder_name : String) : String :=
  ⟨stripFromMarker folder_name.data⟩

/-- one phenotype sub-directory: its name, the optional `_ICD10.csv` file
and the up to three SNOMED-flavoured files, each given as its parsed rows
when the file exists. -/
structure PhenotypeFolder where
  name : String
  icd10_file : Option (List CorpusRow)
  snomed_files : List (List CorpusRow)

def process_folder (st : MapperState) (folder : PhenotypeFolder) : MapperState :=
  let phenotype_name := extract_phenotype_name folder.name
  let st1 :=
    match folder.icd10_file with
    | some rows => process_csv_file phenotype_name "icd10" st rows
    | none => st
  folder.snomed_files.foldl (process_csv_file phenotype_name "snomed") st1

def build_phenotype_index (folders : List PhenotypeFolder) : MapperState :=
  (folders.filter (fun f => containsMarker f.name.data)).foldl process_folder initState

def load_crosswalk_row (st : MapperState) (row : CrosswalkRow) : MapperState :=
  let icd10_code := sTrim row.icd10cm
  let icd9_code := sTrim row.icd9cm
  if row.no_map ≠ 0 ∨ icd9_code = "" ∨ icd10_code = "" then st
  else
    let icd9_formatted := format_icd9_code icd9_code
    let icd10_formatted := format_icd10_code icd10_code
    let st1 := { st with
      icd9_to_icd10_map :=
        alSet st.icd9_to_icd10_map icd9_formatted (icd10_formatted, row.approximate != 0),
      icd10_to_icd9_map := dictSetAdd st.icd10_to_icd9_map icd10_formatted icd9_formatted }
    match alGet st1.phenotype_index_icd10 icd10_formatted with
    | some phenotypes =>
      let st2 := { st1 with
        phenotype_index_icd9 := dictSetUnion st1.phenotype_index_icd9 icd9_formatted phenotypes }
      match alGet st2.code_descriptions icd10_formatted with
      | some d => { st2 with code_descriptions := alSet st2.code_descriptions icd9_formatted d }
      | none => st2
    | none => st1

def load_icd9_mapping (st : MapperState) (rows : List CrosswalkRow) : MapperState :=
  rows.foldl load_crosswalk_row st

/-- constructor `PhenotypeMapper.__init__`: build the phenotype index from the corpus,
then load the crosswalk (an absent crosswalk file is the empty row list). -/
def build_mapper (folders : List PhenotypeFolder) (crosswalk : List CrosswalkRow) :
    MapperState :=
  load_icd9_mapping (build_phenotype_index folders) crosswalk

/-! ### Dictionary and set lemmas -/

theorem alGet_alSet_self {α : Type} (m : List (String × α)) (k : String) (v : α) :
    alGet (alSet m k v) k = some v := by
  induction m with
  | nil => simp [alSet, alGet]
  | cons p rest ih =>
    obtain ⟨pk, pv⟩ := p
    by_cases hpk : pk = k
    · simp [alSet, alGet, hpk]
    · simp [alSet, alGet, hpk, ih]

theorem mem_alKeys_alSet {α : Type} (m : List (String × α)) (k : String) (v : α) :
    ∀ k' ∈ alKeys (alSet m k v), k' ∈ alKeys m ∨ k' = k := by
  induction m with
  | nil =>
    intro k' h
    simp [alSet, alKeys] at h
    exact Or.inr h
  | cons p rest ih =>
    obtain ⟨pk, pv⟩ := p
    intro k' h
    by_cases hpk : pk = k
    · simp only [alSet, if_pos hpk, alKeys, List.map_cons, List.mem_cons] at h
      rcases h with h | h
      · exact Or.inr h
      · exact Or.inl (by simp [alKeys]; exact Or.inr (by simpa [alKeys] using h))
    · simp only [alSet, if_neg hpk, alKeys, List.map_cons, List.mem_cons] at h
      rcases h with h | h
      · exact Or.inl (by simp [alKeys, h])
      · rcases ih k' (by simpa [alKeys] using h) with h' | h'
        · exact Or.inl (by simp [alKeys]; exact Or.inr (by simpa [alKeys] using h'))
        · exact Or.inr h'

theorem mem_setAdd (s : List String) (x y : String) :
    y ∈ setAdd s x ↔ y ∈ s ∨ y = x := by
  unfold setAdd
  split_ifs with h
  · constructor
    · exact fun hy => Or.inl hy
    · rintro (hy | rfl)
      · exact hy
      · exact h
  · simp [List.mem_append]

theorem mem_setUnion (s t : List String) (x : String) :
    x ∈ setUnion s t ↔ x ∈ s ∨ x ∈ t := by
  induction t generalizing s with
  | nil => simp [setUnion]
  | cons a t ih =>
    have hstep : setUnion s (a :: t) = setUnion (setAdd s a) t := rfl
    rw [hstep, ih, mem_setAdd]
    simp [List.mem_cons]
    tauto

theorem mem_prefix_scan (part : List (String × List String)) (pre : List Char)
    (acc : List String) (x : String) :
    x ∈ prefix_scan part pre acc ↔
      x ∈ acc ∨ ∃ c ps, (c, ps) ∈ part ∧ pre.isPrefixOf c.data = true ∧ x ∈ ps := by
  induction part generalizing acc with
  | nil => simp [prefix_scan]
  | cons kv rest ih =>
    obtain ⟨k, vs⟩ := kv
    have hstep : prefix_scan ((k, vs) :: rest) pre acc =
        prefix_scan rest pre (if pre.isPrefixOf k.data then setUnion acc vs else acc) := rfl
    rw [hstep, ih]
    by_cases h : pre.isPrefixOf k.data
    · simp only [if_pos h, mem_setUnion, List.mem_cons]
      constructor
      · rintro ((hx | hx) | ⟨c, ps, hm, hpre, hx⟩)
        · exact Or.inl hx
        · exact Or.inr ⟨k, vs, Or.inl rfl, by rw [h], hx⟩
        · exact Or.inr ⟨c, ps, Or.inr hm, hpre, hx⟩
      · rintro (hx | ⟨c, ps, hm, hpre, hx⟩)
        · exact Or.inl (Or.inl hx)
        · rcases hm with heq | hm
          · obtain ⟨rfl, rfl⟩ : c = k ∧ ps = vs := by
              constructor <;> [exact congrArg Prod.fst heq; exact congrArg Prod.snd heq]
            exact Or.inl (Or.inr hx)
          · exact Or.inr ⟨c, ps, hm, hpre, hx⟩
    · simp only [if_neg h, List.mem_cons]
      constructor
      · rintro (hx | ⟨c, ps, hm, hpre, hx⟩)
        · exact Or.inl hx
        · exact Or.inr ⟨c, ps, Or.inr hm, hpre, hx⟩
      · rintro (hx | ⟨c, ps, hm, hpre, hx⟩)
        · exact Or.inl hx
        · rcases hm with heq | hm
          · obtain ⟨rfl, rfl⟩ : c = k ∧ ps = vs := by
              constructor <;> [exact congrArg Prod.fst heq; exact congrArg Prod.snd heq]
            rw [hpre] at h
            exact absurd rfl h
          · exact Or.inr ⟨c, ps, hm, hpre, hx⟩

theorem mem_fpm_step (part : List (String × List String)) (code_base : List Char)
    (acc : List String) (n : Nat) (x : String) :
    x ∈ fpm_step part code_base acc n ↔
      x ∈ acc ∨ (n < code_base.length ∧
        ∃ c ps, (c, ps) ∈ part ∧ (code_base.take n).isPrefixOf c.data = true ∧ x ∈ ps) := by
  unfold fpm_step
  split_ifs with h
  · rw [mem_prefix_scan]
    tauto
  · tauto

theorem mem_fpm_base (part : List (String × List String)) (code_base : List Char)
    (x : String) :
    x ∈ fpm_base part code_base ↔
      ∃ ps, alGet part ⟨code_base⟩ = some ps ∧ x ∈ ps := by
  unfold fpm_base
  cases h : alGet part ⟨code_base⟩ with
  | none => simp
  | some ps => simp [mem_setUnion]

/-- The partial tier as §4.5 of the spec words it: the phenotype set at
the decimal-stripped base, unioned, for each truncation length 4, 3, 2
attempted only when the base is strictly longer, with the phenotype sets
of every indexed code starting with that prefix of the base. -/
def PartialSpec (part : List (String × List String)) (medical_code x : String) : Prop :=
  (∃ ps, alGet part ⟨code_base_of medical_code⟩ = some ps ∧ x ∈ ps) ∨
  (∃ n, n ∈ ([4, 3, 2] : List Nat) ∧ n < (code_base_of medical_code).length ∧
    ∃ c ps, (c, ps) ∈ part ∧ ((code_base_of medical_code).take n) <+: c.data ∧ x ∈ ps)

theorem mem_find_partial_matches (part : List (String × List String))
    (medical_code : String) (x : String) :
    x ∈ find_partial_matches part medical_code ↔ PartialSpec part medical_code x := by
  have hfold : find_partial_matches part medical_code =
      fpm_step part (code_base_of medical_code)
        (fpm_step part (code_base_of medical_code)
          (fpm_step part (code_base_of medical_code)
            (fpm_base part (code_base_of medical_code)) 4) 3) 2 := rfl
  rw [hfold]
  rw [mem_fpm_step, mem_fpm_step, mem_fpm_step, mem_fpm_base]
  unfold PartialSpec
  simp only [List.isPrefixOf_iff_prefix, List.mem_cons, List.not_mem_nil, or_false]
  constructor
  · rintro (((hb | ⟨h4, hc⟩) | ⟨h3, hc⟩) | ⟨h2, hc⟩)
    · exact Or.inl hb
    · exact Or.inr ⟨4, by simp, h4, hc⟩
    · exact Or.inr ⟨3, by simp, h3, hc⟩
    · exact Or.inr ⟨2, by simp, h2, hc⟩
  · rintro (hb | ⟨n, hn, hlen, hc⟩)
    · exact Or.inl (Or.inl (Or.inl hb))
    · rcases hn with rfl | rfl | rfl
      · exact Or.inl (Or.inl (Or.inr ⟨hlen, hc⟩))
      · exact Or.inl (Or.inr ⟨hlen, hc⟩)
      · exact Or.inr ⟨hlen, hc⟩

/-! ### Outcome lemmas for `map_code`: one per control-flow exit -/

theorem map_code_error_eq (st : MapperState) (code ct : String)
    (hp : partitionGet st (resolvedType code ct) = none) :
    map_code st code ct = Except.error ("KeyError: " ++ resolvedType code ct) := by
  simp only [map_code, hp]

theorem map_code_direct_eq (st : MapperState) (code ct : String)
    (part : List (String × List String))
    (hp : partitionGet st (resolvedType code ct) = some part)
    (hd : (alGet part (formattedOf code ct)).getD [] ≠ []) :
    map_code st code ct = Except.ok
      { initResult (sTrim code) (formattedOf code ct) (resolvedType code ct) with
        phenotypes := (alGet part (formattedOf code ct)).getD [],
        description := (alGet st.code_descriptions (formattedOf code ct)).getD "",
        match_type := "direct", confidence := 1,
        mapping_path := resolvedType code ct ++ " -> phenotype" } := by
  simp only [formattedOf] at hd ⊢
  simp only [map_code, hp, hd, if_true, ne_eq, not_false_eq_true, if_pos]

theorem map_code_mapped_eq (st : MapperState) (code ct : String)
    (part : List (String × List String)) (icd10_code : String) (approx : Bool)
    (ips : List String)
    (hp : partitionGet st (resolvedType code ct) = some part)
    (hd : (alGet part (formattedOf code ct)).getD [] = [])
    (hb : bridged_lookup st (resolvedType code ct) (formattedOf code ct) =
      some (icd10_code, approx, ips)) :
    map_code st code ct = Except.ok
      { initResult (sTrim code) (formattedOf code ct) (resolvedType code ct) with
        phenotypes := ips,
        description := (alGet st.code_descriptions icd10_code).getD "",
        match_type := "mapped",
        confidence := if approx then 7/10 else 9/10,
        mapping_path := "icd9 -> icd10 (" ++ icd10_code ++ ") -> phenotype",
        approximate_match := approx } := by
  simp only [formattedOf] at hd hb ⊢
  simp only [map_code, hp, hd, hb, ne_eq, not_true_eq_false, if_false,
    not_false_eq_true]

theorem map_code_partial_eq (st : MapperState) (code ct : String)
    (part : List (String × List String))
    (hp : partitionGet st (resolvedType code ct) = some part)
    (hd : (alGet part (formattedOf code ct)).getD [] = [])
    (hb : bridged_lookup st (resolvedType code ct) (formattedOf code ct) = none)
    (hpp : find_partial_matches part (formattedOf code ct) ≠ []) :
    map_code st code ct = Except.ok
      { initResult (sTrim code) (formattedOf code ct) (resolvedType code ct) with
        phenotypes := find_partial_matches part (formattedOf code ct),
        description := (alGet st.code_descriptions (formattedOf code ct)).getD "",
        match_type := "partial", confidence := 1/2,
        mapping_path := resolvedType code ct ++ " -> phenotype (partial match)" } := by
  simp only [formattedOf] at hd hb hpp ⊢
  simp only [map_code, hp, hd, hb, hpp, ne_eq, not_true_eq_false, if_false,
    not_false_eq_true, if_true, if_pos]

theorem map_code_none_eq (st : MapperState) (code ct : String)
    (part : List (String × List String))
    (hp : partitionGet st (resolvedType code ct) = some part)
    (hd : (alGet part (formattedOf code ct)).getD [] = [])
    (hb : bridged_lookup st (resolvedType code ct) (formattedOf code ct) = none)
    (hpp : find_partial_matches part (formattedOf code ct) = []) :
    map_code st code ct = Except.ok
      (initResult (sTrim code) (formattedOf code ct) (resolvedType code ct)) := by
  simp only [formattedOf] at hd hb hpp ⊢
  simp only [map_code, hp, hd, hb, hpp, ne_eq, not_true_eq_false, if_false]

/-! ### Construction lemmas: where ICD9 index keys come from -/

theorem indexAdd_icd9_of_ne (st : MapperState) (ct code phen : String)
    (h : ct ≠ "icd9") :
    (indexAdd st ct code phen).phenotype_index_icd9 = st.phenotype_index_icd9 := by
  unfold indexAdd
  by_cases h1 : ct = "icd10"
  · rw [if_pos h1]
  · rw [if_neg h1]
    by_cases h2 : ct = "snomed"
    · rw [if_pos h2]
    · rw [if_neg h2, if_neg h]

theorem process_csv_row_icd9 (phen ct : String) (st : MapperState)
    (row : CorpusRow) (h : ct ≠ "icd9") :
    (process_csv_row phen ct st row).phenotype_index_icd9 = st.phenotype_index_icd9 := by
  unfold process_csv_row
  dsimp only
  split_ifs with h1 h2
  · dsimp only
    exact indexAdd_icd9_of_ne st ct _ phen h
  · dsimp only
    exact indexAdd_icd9_of_ne st ct _ phen h
  · rfl

theorem foldl_pres_icd9 {β : Type} (f : MapperState → β → MapperState)
    (hf : ∀ st b, (f st b).phenotype_index_icd9 = st.phenotype_index_icd9) :
    ∀ (l : List β) (st : MapperState),
      (l.foldl f st).phenotype_index_icd9 = st.phenotype_index_icd9 := by
  intro l
  induction l with
  | nil => intro st; rfl
  | cons b bs ih =>
    intro st
    rw [List.foldl_cons, ih (f st b), hf st b]

theorem process_csv_file_icd9 (phen ct : String) (st : MapperState)
    (rows : List CorpusRow) (h : ct ≠ "icd9") :
    (process_csv_file phen ct st rows).phenotype_index_icd9 = st.phenotype_index_icd9 :=
  foldl_pres_icd9 (process_csv_row phen ct)
    (fun st' r => process_csv_row_icd9 phen ct st' r h) rows st

theorem process_folder_icd9 (st : MapperState) (folder : PhenotypeFolder) :
    (process_folder st folder).phenotype_index_icd9 = st.phenotype_index_icd9 := by
  unfold process_folder
  dsimp only
  rw [foldl_pres_icd9 (process_csv_file (extract_phenotype_name folder.name) "snomed")
    (fun st' rows => process_csv_file_icd9 _ _ st' rows (by decide))]
  cases folder.icd10_file with
  | none => rfl
  | some rows => exact process_csv_file_icd9 _ _ st rows (by decide)

theorem build_phenotype_index_icd9 (folders : List PhenotypeFolder) :
    (build_phenotype_index folders).phenotype_index_icd9 = [] := by
  unfold build_phenotype_index
  rw [foldl_pres_icd9 process_folder process_folder_icd9]
  rfl

theorem load_crosswalk_row_icd9_index (st : MapperState) (row : CrosswalkRow) :
    (load_crosswalk_row st row).phenotype_index_icd9 = st.phenotype_index_icd9 ∨
    ∃ ps, (load_crosswalk_row st row).phenotype_index_icd9 =
      alSet st.phenotype_index_icd9 (format_icd9_code (sTrim row.icd9cm))
        (setUnion ((alGet st.phenotype_index_icd9
          (format_icd9_code (sTrim row.icd9cm))).getD []) ps) := by
  unfold load_crosswalk_row
  dsimp only
  split_ifs with hskip
  · exact Or.inl rfl
  · cases h : alGet st.phenotype_index_icd10 (format_icd10_code (sTrim row.icd10cm)) with
    | none => exact Or.inl rfl
    | some phenotypes =>
      right
      refine ⟨phenotypes, ?_⟩
      cases hd : alGet st.code_descriptions (format_icd10_code (sTrim row.icd10cm)) with
      | none => rfl
      | some d => rfl

theorem load_crosswalk_row_icd9_keys (st : MapperState) (row : CrosswalkRow)
    (hInv : ∀ k ∈ alKeys st.phenotype_index_icd9, format_icd9_code k = k) :
    ∀ k ∈ alKeys (load_crosswalk_row st row).phenotype_index_icd9,
      format_icd9_code k = k := by
  rcases load_crosswalk_row_icd9_index st row with heq | ⟨ps, heq⟩
  · rw [heq]; exact hInv
  · rw [heq]
    intro k hk
    rcases mem_alKeys_alSet _ _ _ k hk with hk' | rfl
    · exact hInv k hk'
    · exact format_icd9_idem (sTrim row.icd9cm)

theorem load_icd9_mapping_keys (rows : List CrosswalkRow) :
    ∀ st : MapperState,
      (∀ k ∈ alKeys st.phenotype_index_icd9, format_icd9_code k = k) →
      ∀ k ∈ alKeys (load_icd9_mapping st rows).phenotype_index_icd9,
        format_icd9_code k = k := by
  induction rows with
  | nil => intro st hInv; exact hInv
  | cons r rs ih =>
    intro st hInv
    exact ih (load_crosswalk_row st r) (load_crosswalk_row_icd9_keys st r hInv)

/-! ### Concrete states used by witnesses and counterexamples -/

/-- a corpus whose ICD10 source file stores a code without its decimal -/
def corpusC2 : List PhenotypeFolder :=
  [⟨"Diabetes_birm_cam", some [⟨"E119", "type 2 diabetes", ""⟩], []⟩]

/-- a corpus in which the SNOMED-flavoured file of the phenotype stores a
description under the code `250.00`, and the ICD10 file stores a
different description under `E11.9`. -/
def corpusC3 : List PhenotypeFolder :=
  [⟨"Diabetes_birm_cam", some [⟨"E11.9", "corpus icd10 description", ""⟩],
    [[⟨"250.00", "corpus snomed description", ""⟩]]⟩]

def rowC3 : CrosswalkRow := ⟨"E119", "25000", 0, 0⟩

def stC3 : MapperState := build_phenotype_index corpusC3

/-- crosswalk maps `250.00` to `E11.9` exactly; `E11.9` is indexed under
Diabetes; no direct ICD9 entry. -/
def stC4 : MapperState :=
  ⟨[("E11.9", ["Diabetes"])], [], [], [], [], [("250.00", ("E11.9", false))], []⟩

/-- a state with both a direct ICD9 entry and a viable crosswalk bridge
for the same code -/
def stC5 : MapperState :=
  ⟨[("E11.9", ["DiabetesBridged"])], [], [("250.00", ["DiabetesDirect"])], [],
    [], [("250.00", ("E11.9", false))], []⟩

/-- state with `E11.9` indexed under Diabetes and nothing else -/
def stC7 : MapperState := ⟨[("E11.9", ["Diabetes"])], [], [], [], [], [], []⟩

/-- the result `map_code` produces on `stC7` for input `E11` -/
def rC10 : MappingResult :=
  { input_code := "E11", formatted_code := "E11", detected_type := "icd10",
    phenotypes := ["Diabetes"], description := "", match_type := "partial",
    confidence := 1/2, mapping_path := "icd10 -> phenotype (partial match)",
    approximate_match := false }

/-! ### The claims -/

/-- C1: the claim says `map_code` never raises for declared types in
auto/icd9/icd10/snomed and that an unrecognized 5-character alphabetic
string (classified `unknown`) yields a `none`/0.0 result.  The code
instead raises `KeyError: 'unknown'` at
`self.phenotype_index[code_type]`, because the outer index dict has no
`unknown` key: for every mapper state, resolving `ABCDE` with declared
type `auto` is an error, not a result. -/
theorem claim_C1_keyerror :
    ∀ st : MapperState, detect_code_type "ABCDE" = "unknown" ∧
      map_code st "ABCDE" "auto" = Except.error "KeyError: unknown" :=
  fun _ => ⟨rfl, rfl⟩

/-- C2 counterexample: the phenotype-index builder stores corpus codes as
keys without normalizing them, so a corpus file carrying `E119` puts the
raw key `E119` in the `icd10` partition even though
`_format_icd10_code "E119" = "E11.9"`. -/
theorem claim_C2_counterexample :
    "E119" ∈ alKeys (build_mapper corpusC2 []).phenotype_index_icd10 ∧
    format_icd10_code "E119" ≠ "E119" := by
  constructor
  · decide
  · decide

/-- C2 amended: only the `icd9` partition (populated exclusively by the
crosswalk loader, which formats every key) is guaranteed canonical: after
construction every key of the `icd9` partition is a fixed point of
`_format_icd9_code`.  Keys of the `icd10` and `snomed` partitions are the
raw stripped corpus codes. -/
theorem claim_C2_amended (folders : List PhenotypeFolder)
    (crosswalk : List CrosswalkRow) :
    ∀ k ∈ alKeys (build_mapper folders crosswalk).phenotype_index_icd9,
      format_icd9_code k = k := by
  apply load_icd9_mapping_keys
  rw [build_phenotype_index_icd9]
  intro k hk
  simp [alKeys] at hk

theorem claim_C2_witness :
    ("250.00" ∈ alKeys (build_mapper corpusC3 [rowC3]).phenotype_index_icd9) ∧
    format_icd9_code "250.00" = "250.00" :=
  ⟨by decide, claim_C2_amended corpusC3 [rowC3] "250.00" (by decide)⟩

/-- C3 counterexample: the loader's guard is
`if icd10_formatted in self.code_descriptions`, not a check that the ICD9
code lacks one, so an existing ICD9 description is overwritten: in the
state built from `corpusC3`, code `250.00` has description
`corpus snomed description` before the crosswalk row is processed and
`corpus icd10 description` after. -/
theorem claim_C3_counterexample :
    (alGet stC3.phenotype_index_icd10
      (format_icd10_code (sTrim rowC3.icd10cm)) = some ["Diabetes"]) ∧
    alGet stC3.code_descriptions "250.00" = some "corpus snomed description" ∧
    alGet (load_crosswalk_row stC3 rowC3).code_descriptions "250.00" =
      some "corpus icd10 description" ∧
    ("corpus snomed description" : String) ≠ "corpus icd10 description" :=
  ⟨by decide, by decide, by decide, by decide⟩

/-- C3 amended: for every crosswalk row that survives the skip guard and
whose target ICD10 code has phenotype entries, if the ICD10 code has a
stored description it is copied to the source ICD9 code unconditionally,
overwriting whatever description the ICD9 code had before. -/
theorem claim_C3_amended (st : MapperState) (row : CrosswalkRow)
    (ps : List String) (d : String)
    (hskip : ¬ (row.no_map ≠ 0 ∨ sTrim row.icd9cm = "" ∨ sTrim row.icd10cm = ""))
    (hphen : alGet st.phenotype_index_icd10
      (format_icd10_code (sTrim row.icd10cm)) = some ps)
    (hdesc : alGet st.code_descriptions
      (format_icd10_code (sTrim row.icd10cm)) = some d) :
    alGet (load_crosswalk_row st row).code_descriptions
      (format_icd9_code (sTrim row.icd9cm)) = some d := by
  unfold load_crosswalk_row
  rw [if_neg hskip]
  dsimp only
  rw [hphen]
  dsimp only
  rw [hdesc]
  dsimp only
  exact alGet_alSet_self _ _ _

theorem claim_C3_witness :
    (¬ (rowC3.no_map ≠ 0 ∨ sTrim rowC3.icd9cm = "" ∨ sTrim rowC3.icd10cm = "")) ∧
    alGet (load_crosswalk_row stC3 rowC3).code_descriptions
      (format_icd9_code (sTrim rowC3.icd9cm)) = some "corpus icd10 description" :=
  ⟨by decide, claim_C3_amended stC3 rowC3 ["Diabetes"] "corpus icd10 description"
    (by decide) (by decide) (by decide)⟩

/-- C4: in any state where the icd9 partition has no entry under the
formatted key `250.00`, the forward crosswalk maps `250.00` to `E11.9`
with the exact flag, and `E11.9` is indexed under Diabetes, resolving
`25000` with declared type `icd9` returns tier `mapped`, confidence 0.9
and phenotypes `Diabetes`. -/
theorem claim_C4 (st : MapperState)
    (h1 : alGet st.phenotype_index_icd9 "250.00" = none)
    (h2 : alGet st.icd9_to_icd10_map "250.00" = some ("E11.9", false))
    (h3 : alGet st.phenotype_index_icd10 "E11.9" = some ["Diabetes"]) :
    ∃ r, map_code st "25000" "icd9" = Except.ok r ∧
      r.match_type = "mapped" ∧ r.confidence = 9/10 ∧
      r.phenotypes = ["Diabetes"] ∧ r.approximate_match = false := by
  have hr : resolvedType "25000" "icd9" = "icd9" := rfl
  have hf : formattedOf "25000" "icd9" = "250.00" := rfl
  have hp : partitionGet st (resolvedType "25000" "icd9") =
      some st.phenotype_index_icd9 := rfl
  have hd : (alGet st.phenotype_index_icd9 (formattedOf "25000" "icd9")).getD [] = [] := by
    rw [hf, h1]
    rfl
  have hb : bridged_lookup st (resolvedType "25000" "icd9")
      (formattedOf "25000" "icd9") = some ("E11.9", false, ["Diabetes"]) := by
    rw [hr, hf]
    unfold bridged_lookup
    rw [if_pos rfl, h2]
    dsimp only
    rw [h3]
    rfl
  exact ⟨_, map_code_mapped_eq st "25000" "icd9" st.phenotype_index_icd9
    "E11.9" false ["Diabetes"] hp hd hb, rfl, rfl, rfl, rfl⟩

theorem claim_C4_witness :
    (alGet stC4.phenotype_index_icd9 "250.00" = none) ∧
    (∃ r, map_code stC4 "25000" "icd9" = Except.ok r ∧
      r.match_type = "mapped" ∧ r.confidence = 9/10 ∧
      r.phenotypes = ["Diabetes"] ∧ r.approximate_match = false) :=
  ⟨by decide, claim_C4 stC4 (by decide) (by decide) (by decide)⟩

/-- C5: whenever the normalized code has a non-empty phenotype set in the
resolved type's partition, `map_code` returns tier `direct` with
confidence 1.0 and exactly that phenotype set, for every state — in
particular regardless of any crosswalk bridge, which is never consulted. -/
theorem claim_C5 (st : MapperState) (code ct : String)
    (part : List (String × List String))
    (hpart : partitionGet st (resolvedType code ct) = some part)
    (hdirect : (alGet part (formattedOf code ct)).getD [] ≠ []) :
    ∃ r, map_code st code ct = Except.ok r ∧ r.match_type = "direct" ∧
      r.confidence = 1 ∧
      r.phenotypes = (alGet part (formattedOf code ct)).getD [] :=
  ⟨_, map_code_direct_eq st code ct part hpart hdirect, rfl, rfl, rfl⟩

theorem claim_C5_witness :
    (partitionGet stC5 (resolvedType "25000" "icd9") =
      some [("250.00", ["DiabetesDirect"])]) ∧
    (alGet stC5.icd9_to_icd10_map (formattedOf "25000" "icd9") =
      some ("E11.9", false)) ∧
    (alGet stC5.phenotype_index_icd10 "E11.9" = some ["DiabetesBridged"]) ∧
    (∃ r, map_code stC5 "25000" "icd9" = Except.ok r ∧
      r.match_type = "direct" ∧ r.confidence = 1 ∧
      r.phenotypes =
        (alGet [("250.00", ["DiabetesDirect"])] (formattedOf "25000" "icd9")).getD []) :=
  ⟨by decide, by decide, by decide,
    claim_C5 stC5 "25000" "icd9" [("250.00", ["DiabetesDirect"])]
      (by decide) (by decide)⟩

/-- C6: every successful resolution carries one of exactly five
confidence values, each tied to its tier: 1.0 direct, 0.9 bridged exact,
0.7 bridged approximate, 0.5 partial, 0.0 none, and these are strictly
decreasing. -/
theorem claim_C6 (st : MapperState) (code ct : String) (r : MappingResult)
    (h : map_code st code ct = Except.ok r) :
    ((r.confidence = 1 ∧ r.match_type = "direct") ∨
     (r.confidence = 9/10 ∧ r.match_type = "mapped" ∧ r.approximate_match = false) ∨
     (r.confidence = 7/10 ∧ r.match_type = "mapped" ∧ r.approximate_match = true) ∨
     (r.confidence = 1/2 ∧ r.match_type = "partial") ∨
     (r.confidence = 0 ∧ r.match_type = "none")) ∧
    ((1 : Rat) > 9/10 ∧ (9 : Rat)/10 > 7/10 ∧ (7 : Rat)/10 > 1/2 ∧
      (1 : Rat)/2 > 0) := by
  refine ⟨?_, by norm_num⟩
  cases hp : partitionGet st (resolvedType code ct) with
  | none =>
    rw [map_code_error_eq st code ct hp] at h
    exact absurd h (by simp)
  | some part =>
    by_cases hd : (alGet part (formattedOf code ct)).getD [] ≠ []
    · rw [map_code_direct_eq st code ct part hp hd, Except.ok.injEq] at h
      subst h
      exact Or.inl ⟨rfl, rfl⟩
    · have hd' : (alGet part (formattedOf code ct)).getD [] = [] := not_ne_iff.mp hd
      cases hb : bridged_lookup st (resolvedType code ct) (formattedOf code ct) with
      | some trip =>
        obtain ⟨c10, apx, ips⟩ := trip
        rw [map_code_mapped_eq st code ct part c10 apx ips hp hd' hb,
          Except.ok.injEq] at h
        subst h
        cases apx with
        | false => exact Or.inr (Or.inl ⟨rfl, rfl, rfl⟩)
        | true => exact Or.inr (Or.inr (Or.inl ⟨rfl, rfl, rfl⟩))
      | none =>
        by_cases hpp : find_partial_matches part (formattedOf code ct) ≠ []
        · rw [map_code_partial_eq st code ct part hp hd' hb hpp,
            Except.ok.injEq] at h
          subst h
          exact Or.inr (Or.inr (Or.inr (Or.inl ⟨rfl, rfl⟩)))
        · have hpp' : find_partial_matches part (formattedOf code ct) = [] :=
            not_ne_iff.mp hpp
          rw [map_code_none_eq st code ct part hp hd' hb hpp',
            Except.ok.injEq] at h
          subst h
          exact Or.inr (Or.inr (Or.inr (Or.inr ⟨rfl, rfl⟩)))

theorem claim_C6_witness :
    (((initResult "E11.9" "E11.9" "icd10").confidence = 1 ∧
      (initResult "E11.9" "E11.9" "icd10").match_type = "direct") ∨
     ((initResult "E11.9" "E11.9" "icd10").confidence = 9/10 ∧
      (initResult "E11.9" "E11.9" "icd10").match_type = "mapped" ∧
      (initResult "E11.9" "E11.9" "icd10").approximate_match = false) ∨
     ((initResult "E11.9" "E11.9" "icd10").confidence = 7/10 ∧
      (initResult "E11.9" "E11.9" "icd10").match_type = "mapped" ∧
      (initResult "E11.9" "E11.9" "icd10").approximate_match = true) ∨
     ((initResult "E11.9" "E11.9" "icd10").confidence = 1/2 ∧
      (initResult "E11.9" "E11.9" "icd10").match_type = "partial") ∨
     ((initResult "E11.9" "E11.9" "icd10").confidence = 0 ∧
      (initResult "E11.9" "E11.9" "icd10").match_type = "none")) ∧
    ((1 : Rat) > 9/10 ∧ (9 : Rat)/10 > 7/10 ∧ (7 : Rat)/10 > 1/2 ∧
      (1 : Rat)/2 > 0) :=
  claim_C6 initState "E11.9" "icd10" (initResult "E11.9" "E11.9" "icd10") rfl

/-- C7: when both the direct and the bridged tier miss, the phenotype set
`map_code` returns is, as a set, exactly the union described by the spec:
the set indexed at the decimal-stripped base plus, for each truncation
length 4, 3, 2 attempted only when the base is strictly longer, the sets
of every indexed code starting with that prefix of the base; and when
this union is non-empty the result carries confidence 0.5 and tier
`partial`. -/
theorem claim_C7 (st : MapperState) (code ct : String)
    (part : List (String × List String))
    (hpart : partitionGet st (resolvedType code ct) = some part)
    (hdirect : (alGet part (formattedOf code ct)).getD [] = [])
    (hbridge : bridged_lookup st (resolvedType code ct) (formattedOf code ct) = none) :
    ∃ r, map_code st code ct = Except.ok r ∧
      (∀ x, x ∈ r.phenotypes ↔ PartialSpec part (formattedOf code ct) x) ∧
      (r.phenotypes ≠ [] → r.confidence = 1/2 ∧ r.match_type = "partial") := by
  by_cases hpp : find_partial_matches part (formattedOf code ct) ≠ []
  · refine ⟨_, map_code_partial_eq st code ct part hpart hdirect hbridge hpp, ?_, ?_⟩
    · intro x
      exact mem_find_partial_matches part (formattedOf code ct) x
    · intro _
      exact ⟨rfl, rfl⟩
  · have hpp' : find_partial_matches part (formattedOf code ct) = [] :=
      not_ne_iff.mp hpp
    refine ⟨_, map_code_none_eq st code ct part hpart hdirect hbridge hpp', ?_, ?_⟩
    · intro x
      constructor
      · intro hx
        exact absurd hx (List.not_mem_nil x)
      · intro hx
        have hmem := (mem_find_partial_matches part (formattedOf code ct) x).mpr hx
        rw [hpp'] at hmem
        exact absurd hmem (List.not_mem_nil x)
    · intro hne
      exact absurd rfl hne

theorem claim_C7_witness :
    (partitionGet stC7 (resolvedType "E11" "icd10") =
      some [("E11.9", ["Diabetes"])]) ∧
    (∃ r, map_code stC7 "E11" "icd10" = Except.ok r ∧
      (∀ x, x ∈ r.phenotypes ↔
        PartialSpec [("E11.9", ["Diabetes"])] (formattedOf "E11" "icd10") x) ∧
      (r.phenotypes ≠ [] → r.confidence = 1/2 ∧ r.match_type = "partial")) :=
  ⟨by decide, claim_C7 stC7 "E11" "icd10" [("E11.9", ["Diabetes"])]
    (by decide) (by decide) (by decide)⟩

/-- C8: the classifier strips its input and applies the three anchored
patterns in fixed priority order, first match winning: `icd10` on the
letter/digit/digit shape with optional fraction, else `icd9` on three
digits or V/E plus two digits with optional fraction, else `snomed` on
6 to 18 digits, else `unknown`. -/
theorem claim_C8 (s : String) :
    (detect_code_type s = "icd10" ↔ Icd10Shape (trimChars s.data)) ∧
    (detect_code_type s = "icd9" ↔
      ¬ Icd10Shape (trimChars s.data) ∧ Icd9Shape (trimChars s.data)) ∧
    (detect_code_type s = "snomed" ↔
      ¬ Icd10Shape (trimChars s.data) ∧ ¬ Icd9Shape (trimChars s.data) ∧
        SnomedShape (trimChars s.data)) ∧
    (detect_code_type s = "unknown" ↔
      ¬ Icd10Shape (trimChars s.data) ∧ ¬ Icd9Shape (trimChars s.data) ∧
        ¬ SnomedShape (trimChars s.data)) := by
  rw [← isIcd10Pat_iff, ← isIcd9Pat_iff, ← isSnomedPat_iff]
  unfold detect_code_type
  cases h10 : isIcd10Pat (trimChars s.data) <;>
    cases h9 : isIcd9Pat (trimChars s.data) <;>
      cases hs : isSnomedPat (trimChars s.data) <;>
        simp

/-- C9: both normalizers are idempotent on every input string. -/
theorem claim_C9 (x : String) :
    format_icd9_code (format_icd9_code x) = format_icd9_code x ∧
    format_icd10_code (format_icd10_code x) = format_icd10_code x :=
  ⟨format_icd9_idem x, format_icd10_idem x⟩

/-- C10: a resolution that ends in the partial tier takes its description
from the input's own formatted code (defaulting to the empty string),
never from the indexed codes that supplied the partial phenotypes. -/
theorem claim_C10 (st : MapperState) (code ct : String) (r : MappingResult)
    (h : map_code st code ct = Except.ok r)
    (hmt : r.match_type = "partial") :
    r.description = (alGet st.code_descriptions r.formatted_code).getD "" := by
  cases hp : partitionGet st (resolvedType code ct) with
  | none =>
    rw [map_code_error_eq st code ct hp] at h
    exact absurd h (by simp)
  | some part =>
    by_cases hd : (alGet part (formattedOf code ct)).getD [] ≠ []
    · rw [map_code_direct_eq st code ct part hp hd, Except.ok.injEq] at h
      subst h
      have hlit : ("direct" : String) = "partial" := hmt
      exact absurd hlit (by decide)
    · have hd' : (alGet part (formattedOf code ct)).getD [] = [] := not_ne_iff.mp hd
      cases hb : bridged_lookup st (resolvedType code ct) (formattedOf code ct) with
      | some trip =>
        obtain ⟨c10, apx, ips⟩ := trip
        rw [map_code_mapped_eq st code ct part c10 apx ips hp hd' hb,
          Except.ok.injEq] at h
        subst h
        have hlit : ("mapped" : String) = "partial" := hmt
        exact absurd hlit (by decide)
      | none =>
        by_cases hpp : find_partial_matches part (formattedOf code ct) ≠ []
        · rw [map_code_partial_eq st code ct part hp hd' hb hpp,
            Except.ok.injEq] at h
          subst h
          rfl
        · have hpp' : find_partial_matches part (formattedOf code ct) = [] :=
            not_ne_iff.mp hpp
          rw [map_code_none_eq st code ct part hp hd' hb hpp',
            Except.ok.injEq] at h
          subst h
          have hlit : ("none" : String) = "partial" := hmt
          exact absurd hlit (by decide)

theorem claim_C10_witness :
    map_code stC7 "E11" "icd10" = Except.ok rC10 ∧
    rC10.match_type = "partial" ∧
    rC10.description = (alGet stC7.code_descriptions rC10.formatted_code).getD "" :=
  ⟨rfl, rfl, claim_C10 stC7 "E11" "icd10" rC10 rfl rfl⟩

end PhenoMap
